import Mathlib

/-!
Verification of the stateful monitoring core of the spacecat telescope
monitor.  The definitions below are a shallow embedding of the Rust
sources: `src/sequence.rs` (sequence-tree target resolution and meridian
formatting), `src/events.rs` (event data model), `src/images.rs` (image
metadata), `src/chat/mod.rs` (multi-channel dispatch) and
`src/chat_updater.rs` (monitor state machine).

Modelling conventions:
- Rust `String` values are Lean `String`s; the byte-level operations
  `ends_with`, `strip_suffix`, `contains` and lexicographic `<` are
  implemented over the character list (`String.data`), which agrees with
  the byte-level behaviour on the ASCII data these functions handle.
- `f64` values are modelled as exact rationals (`Rat`).  The `as i32`
  cast saturates, as in Rust; `NaN` is outside the model.
- `std::time::Instant` and `Duration` are discrete counters in Rust; they
  are modelled as natural numbers (one unit = one second), with
  `Instant::elapsed` as truncated subtraction.
- `HashSet<String>` is modelled as a `Finset` of fingerprints.  The event
  fingerprint `format!("{}|{}|{:?}", time, event, details)` is injective
  on the event fields (derived `Debug` output is injective and the fields
  contain no separator), so it is modelled as the triple itself; likewise
  the image fingerprint is the pair (date, camera_name).
- The raw `serde_json::Value` list walked by `extract_current_target` is
  modelled by the forest type `SeqForest`, which records exactly the data
  the source reads from each value: the optional string fields "Name" and
  "Status", the optional "GlobalTriggers" array, and the optional "Items"
  array (absent or non-array behaves as the empty forest).
-/

namespace Spacecat

/-- Boolean strict order on characters (byte order on ASCII data). -/
def charLtB (a b : Char) : Bool := a.toNat < b.toNat

/-- Lexicographic order on character lists, mirroring Rust `str` `<`. -/
def listLexLt : List Char → List Char → Bool
  | [], [] => false
  | [], _ :: _ => true
  | _ :: _, [] => false
  | a :: as, b :: bs => charLtB a b || (a == b && listLexLt as bs)

/-- Rust `a < b` on strings. -/
def strLt (a b : String) : Bool := listLexLt a.toList b.toList

/-- Rust `str::ends_with` on strings. -/
def strEndsWith (s suffix : String) : Bool := suffix.toList.isSuffixOf s.toList

/-- Whether `pat` occurs as a contiguous sublist of the second list. -/
def listHasSub (pat : List Char) : List Char → Bool
  | [] => pat.isEmpty
  | c :: rest => pat.isPrefixOf (c :: rest) || listHasSub pat rest

/-- Rust `str::contains` with a string pattern (substring test). -/
def strContainsStr (hay pat : String) : Bool := listHasSub pat.toList hay.toList

/-- Rust `name.strip_suffix(suffix).unwrap_or(name)`. -/
def stripSuffixOr (s suffix : String) : String :=
  if strEndsWith s suffix then
    String.mk (s.toList.take (s.toList.length - suffix.toList.length))
  else s

/-- One entry of a "GlobalTriggers" array, recording the fields the
source reads: `Name` (as a string) and `TimeToFlip` (as a number). -/
structure GlobalTrigger where
  name : Option String
  timeToFlip : Option Rat
deriving DecidableEq

/-- A forest of JSON values as observed by `extract_current_target`
(`src/sequence.rs`).  Each `cons` cell is one value of the list, keeping
its optional "Name" and "Status" string fields, its optional
"GlobalTriggers" array, its "Items" children and the remaining siblings.
A non-object value, or an object without the field, yields `none` /
`SeqForest.nil` components. -/
inductive SeqForest where
  | nil : SeqForest
  | cons (name status : Option String) (globalTriggers : Option (List GlobalTrigger))
      (items : SeqForest) (rest : SeqForest) : SeqForest
deriving DecidableEq

/-- Whether a forest is empty. -/
def SeqForest.isNilF : SeqForest → Bool
  | .nil => true
  | .cons _ _ _ _ _ => false

/-- The sequence endpoint response (`SequenceResponse` in
`src/sequence.rs`), with `response` as the raw value list. -/
structure SequenceResponse where
  response : SeqForest
  error : String
  status_code : Int
  success : Bool
  response_type : String
deriving DecidableEq

/-- The deny list of generic container names (`is_system_container` in
`src/sequence.rs`): true when the name has any deny-list entry as a
substring. -/
def is_system_container (name : String) : Bool :=
  ["Start_Container",
   "End_Container",
   "Targets_Container",
   "Basic Sequence Startup_Container",
   "Basic Sequence End_Container",
   "Target Imaging Instructions_Container",
   "Parallel End of Sequence Instructions_Container"].any
    (fun sys_name => strContainsStr name sys_name)

/-- The candidacy gate of `extract_current_target`: status is "RUNNING"
or "Active", the name ends with "_Container", and the name is not a
system container. -/
def container_gate (name status : String) : Bool :=
  (status == "RUNNING" || status == "Active") &&
    strEndsWith name "_Container" && !(is_system_container name)

/-- The recursive walk `search_containers` inside
`extract_current_target` (`src/sequence.rs` lines 235-265): check the
node if it carries both "Name" and "Status" strings and return its
stripped name on a hit with a non-empty stripped name, otherwise search
its "Items" (only reachable when both fields are present) and then the
remaining siblings. -/
def search_containers : SeqForest → Option String
  | .nil => none
  | .cons nm st _gt its rest =>
    match nm, st with
    | some name, some status =>
      if container_gate name status && (stripSuffixOr name "_Container" != "") then
        some (stripSuffixOr name "_Container")
      else
        match search_containers its with
        | some t => some t
        | none => search_containers rest
    | _, _ => search_containers rest

/-- Resolve the current target from a sequence snapshot
(`extract_current_target` in `src/sequence.rs`). -/
def extract_current_target (sequence : SequenceResponse) : Option String :=
  search_containers sequence.response

/-- The loop over the "GlobalTriggers" array in
`extract_meridian_flip_time`: return the "TimeToFlip" number of the
first "Meridian Flip_Trigger" entry that has one. -/
def find_flip_trigger : List GlobalTrigger → Option Rat
  | [] => none
  | t :: rest =>
    if t.name == some "Meridian Flip_Trigger" then
      match t.timeToFlip with
      | some v => some v
      | none => find_flip_trigger rest
    else find_flip_trigger rest

/-- Extract the meridian flip hours from the first response value
(`extract_meridian_flip_time` in `src/sequence.rs`). -/
def extract_meridian_flip_time (sequence : SequenceResponse) : Option Rat :=
  match sequence.response with
  | .nil => none
  | .cons _ _ gt _ _ =>
    match gt with
    | some triggers => find_flip_trigger triggers
    | none => none

/-- Nodes visited by `search_containers`, in visit order, as
(name, status) pairs: a node is visited when it carries both fields, and
only then are its items walked (before the remaining siblings). -/
def visitOrder : SeqForest → List (String × String)
  | .nil => []
  | .cons (some name) (some status) _ its rest =>
      (name, status) :: (visitOrder its ++ visitOrder rest)
  | .cons _ _ _ _ rest => visitOrder rest

/-- The hit test of the walk on a visited (name, status) pair: the
stripped name when the node is a winning candidate. -/
def pairHit (p : String × String) : Option String :=
  if container_gate p.1 p.2 && (stripSuffixOr p.1 "_Container" != "") then
    some (stripSuffixOr p.1 "_Container")
  else none

/-- Stripped names of all candidate nodes contained anywhere in the
forest (full recursion through every `items` list): nodes whose status is
"RUNNING" or "Active", whose name ends with "_Container", is not a
system container, and is non-empty after stripping the suffix. -/
def candidates : SeqForest → List String
  | .nil => []
  | .cons nm st _ its rest =>
    (match nm, st with
     | some name, some status =>
       if container_gate name status && (stripSuffixOr name "_Container" != "") then
         [stripSuffixOr name "_Container"]
       else []
     | _, _ => []) ++ (candidates its ++ candidates rest)

/-- Well-formedness of a snapshot: every node that does not carry both
"Name" and "Status" fields is a leaf (has no "Items").  Real snapshots
have this shape: containers always carry both fields and the
global-trigger record has no "Items" array. -/
def opaqueLeaves : SeqForest → Bool
  | .nil => true
  | .cons nm st _ its rest =>
    ((nm.isSome && st.isSome) || its.isNilF) && opaqueLeaves its && opaqueLeaves rest

/-- Truncation of a rational toward zero (the value of Rust `f64`
truncation before range clamping). -/
def ratTruncToInt (q : Rat) : Int := Int.tdiv q.num (q.den : Int)

/-- The Rust `as i32` cast on a (non-NaN) float value: truncate toward
zero and saturate to the `i32` range. -/
def f64_as_i32 (q : Rat) : Int :=
  if ratTruncToInt q > 2147483647 then 2147483647
  else if ratTruncToInt q < -2147483648 then -2147483648
  else ratTruncToInt q

/-- Rust `format!("{:02}", n)` on an `i32`: zero-pad to width two,
counting the sign. -/
def pad2 (n : Int) : String :=
  if 0 ≤ n && n < 10 then "0" ++ toString n else toString n

/-- Short-form meridian formatting (`meridian_flip_time_formatted` in
`src/sequence.rs`): minutes = `(hours * 60.0) as i32`, then truncated
division and remainder by 60, zero-padded. -/
def meridian_flip_time_formatted (hours : Rat) : String :=
  let total_minutes := f64_as_i32 (hours * 60)
  pad2 (Int.tdiv total_minutes 60) ++ ":" ++ pad2 (Int.tmod total_minutes 60)

/-- Modelled from the spec: the short-form formula as the specification
words it — "the total minute count is hours*60 truncated toward zero to
an integer", then divided by 60 and modulo 60, zero-padded — with no
range clamping. -/
def spec_format_short (hours : Rat) : String :=
  let total_minutes := ratTruncToInt (hours * 60)
  pad2 (Int.tdiv total_minutes 60) ++ ":" ++ pad2 (Int.tmod total_minutes 60)

/-- An equipment filter record (`FilterInfo` in `src/events.rs`). -/
structure FilterInfo where
  name : String
  id : Int
deriving DecidableEq

/-- Modelled from the spec: the coordinate record carried by a
`TargetStart` event.  The type `TargetCoordinates` is referenced by
`src/chat_updater.rs` but its declaration is not among the sources; the
spec only requires an opaque coordinates value rendered through the two
strings used by the notification builders. -/
structure TargetCoordinates where
  ra_string : String
  dec_string : String
deriving DecidableEq

/-- Tagged event details (`EventDetails` in `src/events.rs`).  The
`FilterWheelChange` variant is from the source; the `TargetStart` variant
is modelled from the spec ("TargetStart{ target_name, coordinates,
project_name, rotation }"), since the source file `src/events.rs` lacks
the variant that `src/chat_updater.rs` matches on. -/
inductive EventDetails where
  | FilterWheelChange (new previous : FilterInfo)
  | TargetStart (target_name : String) (coordinates : TargetCoordinates)
      (project_name : String) (rotation : Rat)
deriving DecidableEq

/-- An event record (`Event` in `src/events.rs`). -/
structure Event where
  time : String
  event : String
  details : Option EventDetails
deriving DecidableEq

/-- Event type tag for filter wheel changes (`event_types` in
`src/events.rs`). -/
def FILTERWHEEL_CHANGED : String := "FILTERWHEEL-CHANGED"

/-- Modelled from the spec: the target-start event tag.  The constant
`event_types::TS_TARGETSTART` is referenced by `src/chat_updater.rs` but
missing from `src/events.rs`; the spec names the event "TS-TARGETSTART". -/
def TS_TARGETSTART : String := "TS-TARGETSTART"

/-- Image metadata (`ImageMetadata` in `src/images.rs`). -/
structure ImageMetadata where
  exposure_time : Rat
  image_type : String
  filter : String
  rms_text : String
  temperature : Rat
  camera_name : String
  gain : Int
  offset : Int
  date : String
  telescope_name : String
  focal_length : Int
  st_dev : Rat
  mean : Rat
  median : Rat
  stars : Int
  hfr : Rat
  is_bayered : Bool
deriving DecidableEq

/-- Where the current target came from (`TargetSource` in
`src/chat_updater.rs`). -/
inductive TargetSource where
  | Sequence
  | TsTargetStart
deriving DecidableEq

/-- Information about the current target (`TargetInfo` in
`src/chat_updater.rs`). -/
structure TargetInfo where
  name : String
  source : TargetSource
  coordinates : Option TargetCoordinates
  project : Option String
  rotation : Option Rat
deriving DecidableEq

/-- Dedup fingerprint of an event
(`UpdaterState::event_key`): the triple behind
`format!("{}|{}|{:?}", time, event, details)`. -/
def event_key (e : Event) : String × String × Option EventDetails :=
  (e.time, e.event, e.details)

/-- Dedup fingerprint of an image (`UpdaterState::image_key`): the pair
behind `format!("{}|{}", date, camera_name)`. -/
def image_key (i : ImageMetadata) : String × String :=
  (i.date, i.camera_name)

/-- Monitor state (`UpdaterState` in `src/chat_updater.rs`). -/
structure UpdaterState where
  events_seen : Finset (String × String × Option EventDetails)
  images_seen : Finset (String × String)
  current_target : Option TargetInfo
  meridian_flip_time : Option Rat
  sequence : Option SequenceResponse
  last_image_time : Option Nat
  skipped_images_count : Nat

/-- The freshly constructed state (`UpdaterState::new`). -/
def UpdaterState.new : UpdaterState :=
  { events_seen := ∅
    images_seen := ∅
    current_target := none
    meridian_flip_time := none
    sequence := none
    last_image_time := none
    skipped_images_count := 0 }

/-- Insert-and-test on the event fingerprint set
(`UpdaterState::has_seen_event`, which returns the negation of
`HashSet::insert`): the flag is true when the event was already seen, and
the fingerprint is recorded either way. -/
def has_seen_event (st : UpdaterState) (e : Event) : Bool × UpdaterState :=
  (decide (event_key e ∈ st.events_seen),
   { st with events_seen := insert (event_key e) st.events_seen })

/-- Insert-and-test on the image fingerprint set
(`UpdaterState::has_seen_image`). -/
def has_seen_image (st : UpdaterState) (i : ImageMetadata) : Bool × UpdaterState :=
  (decide (image_key i ∈ st.images_seen),
   { st with images_seen := insert (image_key i) st.images_seen })

/-- Whether an event is a redundant filter wheel change (previous filter
name equals new filter name), the skip condition of
`process_baseline_events` in `src/chat_updater.rs`. -/
def is_noop_filterwheel (e : Event) : Bool :=
  e.event == FILTERWHEEL_CHANGED &&
    match e.details with
    | some (.FilterWheelChange new previous) => new.name == previous.name
    | _ => false

/-- The per-tick event filter (`ChatUpdater::should_process_event`):
drop redundant filter wheel changes, keep everything else. -/
def should_process_event (e : Event) : Bool :=
  if e.event == FILTERWHEEL_CHANGED then
    match e.details with
    | some (.FilterWheelChange new previous) => new.name != previous.name
    | _ => true
  else true

/-- The latest-TS-TARGETSTART tracking step inside the baseline loop of
`process_baseline_events`: a `TS-TARGETSTART` event with `TargetStart`
details whose target name is not "Sequential Instruction Set" becomes the
tracked target when no target is tracked yet or its time is strictly
later than the tracked one. -/
def baseline_ts_update (latest : Option (String × TargetInfo)) (e : Event) :
    Option (String × TargetInfo) :=
  if e.event == TS_TARGETSTART then
    match e.details with
    | some (.TargetStart target_name coordinates project_name rotation) =>
      if target_name == "Sequential Instruction Set" then latest
      else
        let target_info : TargetInfo :=
          { name := target_name
            source := .TsTargetStart
            coordinates := some coordinates
            project := some project_name
            rotation := some rotation }
        match latest with
        | none => some (e.time, target_info)
        | some (time, _) =>
          if strLt time e.time then some (e.time, target_info) else latest
    | _ => latest
  else latest

/-- The loop body of `process_baseline_events`
(`src/chat_updater.rs` lines 184-225): skip redundant filter wheel
events entirely, otherwise track the latest TS-TARGETSTART target and
mark the event as seen. -/
def baseline_loop (latest : Option (String × TargetInfo))
    (seen : Finset (String × String × Option EventDetails)) :
    List Event → Option (String × TargetInfo) × Finset (String × String × Option EventDetails)
  | [] => (latest, seen)
  | e :: rest =>
    if is_noop_filterwheel e then baseline_loop latest seen rest
    else baseline_loop (baseline_ts_update latest e) (insert (event_key e) seen) rest

/-- Baseline event processing (`ChatUpdater::process_baseline_events`):
run the loop from an empty latest tracker, then install the latest
TS-TARGETSTART target, when one was found, as the current target. -/
def process_baseline_events (st : UpdaterState) (events : List Event) : UpdaterState :=
  let r := baseline_loop none st.events_seen events
  let st1 := { st with events_seen := r.2 }
  match r.1 with
  | some (_, target) => { st1 with current_target := some target }
  | none => st1

/-- One tick of the event-polling loop body (`ChatUpdater::poll_events`)
restricted to its state effect and classification: returns the final
state and the events classified as new (those passing
`should_process_event` and not previously seen), in order.  Each new
event is printed and dispatched to `handle_event`, so an empty list means
no event notification is emitted by the tick. -/
def poll_events_list (st : UpdaterState) : List Event → UpdaterState × List Event
  | [] => (st, [])
  | e :: rest =>
    if should_process_event e then
      let r := has_seen_event st e
      let rr := poll_events_list r.2 rest
      if r.1 then rr else (rr.1, e :: rr.2)
    else poll_events_list st rest

/-- A target notification emitted by the monitor: "Target Started" when
there was no previous target, "Target Change" otherwise. -/
inductive TargetNotice where
  | started (target : TargetInfo)
  | changed (old target : TargetInfo)
deriving DecidableEq

/-- Handling of one `TS-TARGETSTART` event
(`ChatUpdater::handle_ts_targetstart`): ignore the reserved name
"Sequential Instruction Set"; otherwise, when the name differs from the
stored target (or none is stored), store the event target and emit the
started/changed notification (only when chat services are configured). -/
def handle_ts_targetstart (st : UpdaterState) (e : Event) (serviceCount : Nat) :
    UpdaterState × Option TargetNotice :=
  match e.details with
  | some (.TargetStart target_name coordinates project_name rotation) =>
    if target_name == "Sequential Instruction Set" then (st, none)
    else
      let new_target : TargetInfo :=
        { name := target_name
          source := .TsTargetStart
          coordinates := some coordinates
          project := some project_name
          rotation := some rotation }
      let old_target := st.current_target
      let target_changed :=
        match old_target with
        | some t => t.name != new_target.name
        | none => true
      if target_changed then
        ({ st with current_target := some new_target },
         if serviceCount > 0 then
           some (match old_target with
                 | some old => .changed old new_target
                 | none => .started new_target)
         else none)
      else (st, none)
  | _ => (st, none)

/-- One sequence-polling step (`ChatUpdater::poll_sequence`).  The input
is the fetch outcome (`none` is a fetch error).  On success the meridian
hours and stored snapshot are refreshed, and the resolved sequence target
is installed (with a started/changed notification) unless the stored
target came from a TS-TARGETSTART event or the name is unchanged.  On
failure the state is untouched and the error is logged only when no fetch
has succeeded yet (`state.sequence.is_none()`).  Returns (state,
notification, logged). -/
def poll_sequence (st : UpdaterState) (fetch : Option SequenceResponse)
    (serviceCount : Nat) : UpdaterState × Option TargetNotice × Bool :=
  match fetch with
  | some sequence =>
    let new_sequence_target := extract_current_target sequence
    let st1 := { st with
      meridian_flip_time := extract_meridian_flip_time sequence
      sequence := some sequence }
    if (match st1.current_target with
        | some t => t.source != TargetSource.TsTargetStart
        | none => true) then
      match new_sequence_target with
      | some target_name =>
        let new_target : TargetInfo :=
          { name := target_name
            source := .Sequence
            coordinates := none
            project := none
            rotation := none }
        let old_target := st1.current_target
        let target_changed :=
          match old_target with
          | some t => t.name != new_target.name
          | none => true
        if target_changed then
          ({ st1 with current_target := some new_target },
           if serviceCount > 0 then
             some (match old_target with
                   | some old => .changed old new_target
                   | none => .started new_target)
           else none, false)
        else (st1, none, false)
      | none => (st1, none, false)
    else (st1, none, false)
  | none => (st, none, st.sequence.isNone)

/-- The default image notification cooldown installed by
`ChatUpdater::new` (`Duration::from_secs(60)`), in seconds. -/
def default_image_cooldown : Nat := 60

/-- The cooldown gate for one new image
(`ChatUpdater::handle_new_image`): send when no image notification was
sent yet or `last.elapsed() >= cooldown`; on send, disclose the
accumulated skipped count, stamp the send time and zero the counter; on
suppress, increment the counter.  Returns the new state and
`some disclosedCount` exactly when a notification is sent. -/
def handle_new_image (cooldown : Nat) (st : UpdaterState) (now : Nat) :
    UpdaterState × Option Nat :=
  let should_send :=
    match st.last_image_time with
    | none => true
    | some last_time => now - last_time ≥ cooldown
  if should_send then
    ({ st with last_image_time := some now, skipped_images_count := 0 },
     some st.skipped_images_count)
  else
    ({ st with skipped_images_count := st.skipped_images_count + 1 }, none)

/-- A field of a chat message (`ChatField` in `src/chat/mod.rs`). -/
structure ChatField where
  name : String
  value : String
  inline : Bool
deriving DecidableEq

/-- A rendered chat message (`ChatMessage` in `src/chat/mod.rs`). -/
structure ChatMessage where
  title : String
  color : Option Nat
  fields : List ChatField
  footer : Option String
  timestamp : Option String
deriving DecidableEq

/-- A registered chat channel: its name and its send behaviour on a
given message (the `ChatService` trait; `Except.error` models a failed
send). -/
structure Channel where
  service_name : String
  send : ChatMessage → Except String Unit

/-- The dispatcher loop (`ChatServiceManager::send_message`): iterate
the channels in order; a failed send produces a log line and nothing
else.  The result is the observable trace: the names of the channels
invoked, in order, and the log lines of the failures.  The source
function returns `()`, so dispatch itself cannot fail. -/
def send_message_trace : List Channel → ChatMessage → List String × List String
  | [], _ => ([], [])
  | svc :: rest, msg =>
    let r := send_message_trace rest msg
    match svc.send msg with
    | .error e => (svc.service_name :: r.1,
        ("Failed to send message to " ++ svc.service_name ++ ": " ++ e) :: r.2)
    | .ok _ => (svc.service_name :: r.1, r.2)

/-- Concrete snapshot with two simultaneously running target candidates
("Alpha_Container" before "Beta_Container" in tree order), preceded by a
global-trigger record without name or status. -/
def wSeq : SequenceResponse :=
  { response :=
      .cons none none (some []) .nil
        (.cons (some "Alpha_Container") (some "RUNNING") none .nil
          (.cons (some "Beta_Container") (some "RUNNING") none .nil .nil))
    error := ""
    status_code := 200
    success := true
    response_type := "API" }

/-- Concrete target sourced from a TS-TARGETSTART event. -/
def wTsTarget : TargetInfo :=
  { name := "M31"
    source := .TsTargetStart
    coordinates := some ⟨"00:42", "+41:16"⟩
    project := some "Galaxies"
    rotation := some 0 }

/-- Concrete monitor state holding the TS-TARGETSTART target. -/
def wTsState : UpdaterState :=
  { UpdaterState.new with current_target := some wTsTarget }

/-- Concrete monitor state with a send recorded at time 0 and two images
suppressed since. -/
def wCooldownState : UpdaterState :=
  { UpdaterState.new with last_image_time := some 0, skipped_images_count := 2 }

/-- Concrete no-op filter wheel change event. -/
def wNoop : Event :=
  ⟨"t2", "FILTERWHEEL-CHANGED", some (.FilterWheelChange ⟨"HA", 0⟩ ⟨"HA", 0⟩)⟩

/-- Concrete baseline history: five pairwise-distinct events, exactly one
of which (`wNoop`) is a no-op filter wheel change; one is a genuine
filter wheel change. -/
def wEvents : List Event :=
  [⟨"t1", "CAMERA-CONNECTED", none⟩,
   wNoop,
   ⟨"t3", "FILTERWHEEL-CHANGED", some (.FilterWheelChange ⟨"OIII", 1⟩ ⟨"HA", 0⟩)⟩,
   ⟨"t4", "TS-TARGETSTART", some (.TargetStart "M31" ⟨"00:42", "+41:16"⟩ "Galaxies" 0)⟩,
   ⟨"t5", "AUTOFOCUS-FINISHED", none⟩]

/-- Concrete TS-TARGETSTART event carrying the reserved name
"Sequential Instruction Set". -/
def wSISEvent : Event :=
  ⟨"t9", "TS-TARGETSTART",
   some (.TargetStart "Sequential Instruction Set" ⟨"05:35", "-05:23"⟩ "P" 1)⟩

end Spacecat

namespace Spacecat

/-- Helper: a list search returns the first hit. -/
theorem first_hit_findSome {α β : Type} (f : α → Option β) :
    ∀ (L : List α) (i : Nat) (hi : i < L.length) (a : β),
      (∀ k (hk : k < i), f (L.get ⟨k, Nat.lt_trans hk hi⟩) = none) →
      f (L.get ⟨i, hi⟩) = some a → L.findSome? f = some a := by
  intro L
  induction L with
  | nil => intro i hi; exact absurd hi (by simp)
  | cons hd tl ih =>
    intro i hi a hbefore hhit
    cases i with
    | zero =>
      simp only [List.get] at hhit
      simp [List.findSome?, hhit]
    | succ n =>
      have h0 : f hd = none := hbefore 0 (Nat.succ_pos n)
      simp only [List.get] at hhit
      have htl : tl.findSome? f = some a := by
        refine ih n (Nat.lt_of_succ_lt_succ hi) a ?_ hhit
        intro k hk
        exact hbefore (k + 1) (Nat.succ_lt_succ hk)
      simp [List.findSome?, h0, htl]

/-- Helper: the walk of `search_containers` equals the first hit over
the visit order. -/
theorem search_eq_visit : ∀ f : SeqForest,
    search_containers f = (visitOrder f).findSome? pairHit := by
  intro f
  induction f with
  | nil => rfl
  | cons nm st gt its rest ihIts ihRest =>
    match nm, st with
    | some name, some status =>
      simp only [search_containers, visitOrder]
      by_cases h : (container_gate name status &&
          (stripSuffixOr name "_Container" != "")) = true
      · simp [List.findSome?, pairHit, h]
      · have hp : pairHit (name, status) = none := by simp [pairHit, h]
        rw [if_neg h]
        simp only [List.findSome?, hp]
        rw [List.findSome?_append, ← ihIts, ← ihRest]
        cases hits : search_containers its with
        | some u => rfl
        | none => rfl
    | some name, none => simpa [search_containers, visitOrder] using ihRest
    | none, some status => simpa [search_containers, visitOrder] using ihRest
    | none, none => simpa [search_containers, visitOrder] using ihRest

/-- Helper: a name returned by the walk is the stripped name of a
candidate node of the forest. -/
theorem search_sound : ∀ (f : SeqForest) (t : String),
    search_containers f = some t → t ∈ candidates f := by
  intro f
  induction f with
  | nil => intro t h; cases h
  | cons nm st gt its rest ihIts ihRest =>
    intro t h
    match nm, st with
    | some name, some status =>
      simp only [search_containers] at h
      by_cases hg : (container_gate name status &&
          (stripSuffixOr name "_Container" != "")) = true
      · rw [if_pos hg] at h
        cases h
        simp [candidates, hg]
      · rw [if_neg hg] at h
        simp only [candidates, hg, Bool.false_eq_true, if_false, if_neg]
        cases hits : search_containers its with
        | some u => rw [hits] at h; cases h
                    exact List.mem_append_right _ (List.mem_append_left _ (ihIts t hits))
        | none => rw [hits] at h
                  exact List.mem_append_right _ (List.mem_append_right _ (ihRest t h))
    | some name, none =>
      simp only [search_containers] at h
      simp only [candidates]
      exact List.mem_append_right _ (List.mem_append_right _ (ihRest t h))
    | none, some status =>
      simp only [search_containers] at h
      simp only [candidates]
      exact List.mem_append_right _ (List.mem_append_right _ (ihRest t h))
    | none, none =>
      simp only [search_containers] at h
      simp only [candidates]
      exact List.mem_append_right _ (List.mem_append_right _ (ihRest t h))

/-- Helper: on a forest whose field-less nodes are leaves, the walk
finds a target whenever some candidate exists. -/
theorem search_complete : ∀ f : SeqForest, opaqueLeaves f = true →
    candidates f ≠ [] → (search_containers f).isSome = true := by
  intro f
  induction f with
  | nil => intro _ h; exact absurd rfl h
  | cons nm st gt its rest ihIts ihRest =>
    intro hop hne
    simp only [opaqueLeaves, Bool.and_eq_true] at hop
    obtain ⟨⟨hshape, hopIts⟩, hopRest⟩ := hop
    match nm, st with
    | some name, some status =>
      simp only [search_containers]
      by_cases hg : (container_gate name status &&
          (stripSuffixOr name "_Container" != "")) = true
      · rw [if_pos hg]; rfl
      · rw [if_neg hg]
        simp only [candidates, hg, Bool.false_eq_true, if_false, if_neg,
          List.nil_append] at hne
        cases hits : search_containers its with
        | some u => rfl
        | none =>
          have hcIts : candidates its = [] := by
            by_contra hc
            have := ihIts hopIts hc
            rw [hits] at this
            cases this
          rw [hcIts, List.nil_append] at hne
          exact ihRest hopRest hne
    | some name, none =>
      have hnil : its.isNilF = true := by simpa using hshape
      match its, hnil with
      | .nil, _ =>
        simp only [search_containers]
        simp only [candidates, List.nil_append] at hne
        exact ihRest hopRest hne
    | none, some status =>
      have hnil : its.isNilF = true := by simpa using hshape
      match its, hnil with
      | .nil, _ =>
        simp only [search_containers]
        simp only [candidates, List.nil_append] at hne
        exact ihRest hopRest hne
    | none, none =>
      have hnil : its.isNilF = true := by simpa using hshape
      match its, hnil with
      | .nil, _ =>
        simp only [search_containers]
        simp only [candidates, List.nil_append] at hne
        exact ihRest hopRest hne

/-- C1: once the stored target is sourced from a TS-TARGETSTART event,
one sequence-polling step never changes the stored target, for every
fetch outcome (any snapshot, hence any resolver result, and a fetch
failure alike) and any number of chat services. -/
theorem ts_target_precedence (st : UpdaterState) (t : TargetInfo)
    (fetch : Option SequenceResponse) (serviceCount : Nat)
    (hst : st.current_target = some t)
    (hsrc : t.source = TargetSource.TsTargetStart) :
    (poll_sequence st fetch serviceCount).1.current_target = st.current_target := by
  cases fetch with
  | none => rfl
  | some sequence =>
    simp only [poll_sequence, hst, hsrc]
    simp

/-- C1 witness: the precedence theorem applied to a concrete state that
stores the TS-TARGETSTART target "M31" while the fetched snapshot
resolves to the running candidate "Alpha". -/
theorem ts_target_precedence_witness :
    wTsState.current_target = some wTsTarget ∧
      wTsTarget.source = TargetSource.TsTargetStart ∧
      extract_current_target wSeq = some "Alpha" ∧
      (poll_sequence wTsState (some wSeq) 2).1.current_target = wTsState.current_target :=
  ⟨by decide, by decide, by decide,
   ts_target_precedence wTsState wTsTarget (some wSeq) 2 (by decide) (by decide)⟩

/-- C2: when the visit order of the walk contains a first hit at
position i and a later hit at position j, the resolver returns the
position-i candidate and never the position-j one. -/
theorem resolver_first_match (seq : SequenceResponse) (i j : Nat) (a b : String)
    (hi : i < (visitOrder seq.response).length)
    (hj : j < (visitOrder seq.response).length)
    (hij : i < j) (hab : a ≠ b)
    (hbefore : ∀ k (hk : k < i),
      pairHit ((visitOrder seq.response).get ⟨k, Nat.lt_trans hk hi⟩) = none)
    (hhita : pairHit ((visitOrder seq.response).get ⟨i, hi⟩) = some a)
    (hhitb : pairHit ((visitOrder seq.response).get ⟨j, hj⟩) = some b) :
    extract_current_target seq = some a ∧ extract_current_target seq ≠ some b := by
  have h : extract_current_target seq = some a := by
    unfold extract_current_target
    rw [search_eq_visit]
    exact first_hit_findSome pairHit (visitOrder seq.response) i hi a hbefore hhita
  refine ⟨h, ?_⟩
  rw [h]
  simp [hab]

/-- C2 witness: on the concrete snapshot with running candidates
"Alpha_Container" then "Beta_Container", the resolver returns "Alpha",
not "Beta". -/
theorem resolver_first_match_witness :
    pairHit ((visitOrder wSeq.response).get ⟨0, by decide⟩) = some "Alpha" ∧
      pairHit ((visitOrder wSeq.response).get ⟨1, by decide⟩) = some "Beta" ∧
      extract_current_target wSeq = some "Alpha" ∧
      extract_current_target wSeq ≠ some "Beta" := by
  have h := resolver_first_match wSeq 0 1 "Alpha" "Beta" (by decide) (by decide)
    (by decide) (by decide)
    (fun k hk => absurd hk (Nat.not_lt_zero k)) (by decide) (by decide)
  exact ⟨by decide, by decide, h.1, h.2⟩

/-- C3: on a snapshot whose field-less nodes are leaves, the resolver
returns a name exactly when the tree contains a candidate node — status
"RUNNING" or "Active", name ending in "_Container", not a system
container, non-empty after stripping — and any returned name is the
stripped name of such a node; "Targets_Container" is on the deny list,
so a running container of that exact name never resolves. -/
theorem resolver_candidacy (seq : SequenceResponse)
    (hop : opaqueLeaves seq.response = true) :
    ((extract_current_target seq).isSome = true ↔ candidates seq.response ≠ []) ∧
      (∀ t, extract_current_target seq = some t → t ∈ candidates seq.response) ∧
      is_system_container "Targets_Container" = true := by
  refine ⟨⟨?_, ?_⟩, ?_, by decide⟩
  · intro hs
    cases hval : extract_current_target seq with
    | none => rw [hval] at hs; cases hs
    | some t =>
      have hmem := search_sound seq.response t hval
      intro hnil
      rw [hnil] at hmem
      cases hmem
  · intro hne
    exact search_complete seq.response hop hne
  · intro t hval
    exact search_sound seq.response t hval

/-- C3 witness: the candidacy theorem applied to the concrete snapshot,
whose walk resolves "Alpha" with candidate list ["Alpha", "Beta"]. -/
theorem resolver_candidacy_witness :
    opaqueLeaves wSeq.response = true ∧
      candidates wSeq.response = ["Alpha", "Beta"] ∧
      ((extract_current_target wSeq).isSome = true ↔ candidates wSeq.response ≠ []) ∧
      "Alpha" ∈ candidates wSeq.response := by
  have h := resolver_candidacy wSeq (by decide)
  exact ⟨by decide, by decide, h.1, h.2.1 "Alpha" (by decide)⟩

/-- C4: deduplication is insert-and-test: a fingerprint (event key or
image key) is reported unseen exactly when it is not in the seen set, it
is recorded by the query, and an immediately repeated query reports it
as seen. -/
theorem dedup_insert_and_test (st : UpdaterState) (e : Event) (i : ImageMetadata) :
    ((has_seen_event st e).1 = false ↔ event_key e ∉ st.events_seen) ∧
      (has_seen_event (has_seen_event st e).2 e).1 = true ∧
      event_key e ∈ (has_seen_event st e).2.events_seen ∧
      ((has_seen_image st i).1 = false ↔ image_key i ∉ st.images_seen) ∧
      (has_seen_image (has_seen_image st i).2 i).1 = true ∧
      image_key i ∈ (has_seen_image st i).2.images_seen := by
  refine ⟨?_, ?_, ?_, ?_, ?_, ?_⟩ <;>
    simp [has_seen_event, has_seen_image]

/-- C6: the dispatcher attempts a send on every registered channel
exactly once, in registration order, whatever each channel returns; a
failing channel contributes a log line and nothing else, so failures
never curtail the remaining attempts, and the dispatch itself returns no
error (its result type carries none). -/
theorem dispatcher_isolation (services : List Channel) (msg : ChatMessage) :
    (send_message_trace services msg).1 = services.map Channel.service_name ∧
      (send_message_trace services msg).2 = services.filterMap
        (fun svc => match svc.send msg with
          | .error e => some ("Failed to send message to " ++ svc.service_name ++ ": " ++ e)
          | .ok _ => none) := by
  induction services with
  | nil => exact ⟨rfl, rfl⟩
  | cons svc rest ih =>
    cases hsend : svc.send msg with
    | error e =>
      simp only [send_message_trace, hsend, List.map, List.filterMap]
      exact ⟨by rw [ih.1], by rw [ih.2]⟩
    | ok u =>
      simp only [send_message_trace, hsend, List.map, List.filterMap]
      exact ⟨by rw [ih.1], by rw [ih.2]⟩

/-- C7 counterexample: against the claim that only the very first
sequence fetch of the process logs a failure, a second consecutive
failing fetch (not the first one) is logged as well, because the source
suppresses the log only after some fetch has succeeded. -/
theorem sequence_fetch_log_counterexample :
    (poll_sequence UpdaterState.new none 0).2.2 = true ∧
      (poll_sequence (poll_sequence UpdaterState.new none 0).1 none 0).2.2 = true :=
  ⟨rfl, rfl⟩

/-- C7 (amended): a failing sequence fetch leaves the whole state — in
particular the stored target and meridian hours — unchanged, emits no
notification, and is logged exactly when no sequence fetch has succeeded
yet; after the first success, failures are suppressed. -/
theorem sequence_fetch_failure_behavior (st : UpdaterState) (serviceCount : Nat) :
    poll_sequence st none serviceCount = (st, none, st.sequence.isNone) := rfl

/-- C5 counterexample: with the default 60-second cooldown and a send
recorded at time 0, a new image at time 60 is sent although the elapsed
time equals and does not exceed the cooldown — the source gate is
"greater or equal", not strict "exceeds". -/
theorem cooldown_boundary_counterexample :
    (handle_new_image default_image_cooldown wCooldownState 60).2 = some 2 ∧
      ¬((60 : Nat) - 0 > default_image_cooldown) := by
  exact ⟨by decide, by decide⟩

/-- C5 (amended): with the default 60-second cooldown, an image
notification is sent exactly when none was sent yet or the elapsed time
since the last send is at least the cooldown (so 30 seconds after a send
the decision is suppress and at 61 seconds it is send); a send disclosed
the accumulated suppressed count, stamps the send time and resets the
count to 0; a suppress increments the count by one and keeps the stamp. -/
theorem cooldown_gate_protocol (st : UpdaterState) (now : Nat) :
    ((handle_new_image default_image_cooldown st now).2.isSome = true ↔
      (st.last_image_time = none ∨
        ∃ last, st.last_image_time = some last ∧ now - last ≥ default_image_cooldown)) ∧
      (∀ k, (handle_new_image default_image_cooldown st now).2 = some k →
        k = st.skipped_images_count ∧
        (handle_new_image default_image_cooldown st now).1.last_image_time = some now ∧
        (handle_new_image default_image_cooldown st now).1.skipped_images_count = 0) ∧
      ((handle_new_image default_image_cooldown st now).2 = none →
        (handle_new_image default_image_cooldown st now).1.skipped_images_count =
          st.skipped_images_count + 1 ∧
        (handle_new_image default_image_cooldown st now).1.last_image_time =
          st.last_image_time) := by
  cases hlast : st.last_image_time with
  | none =>
    have hred : handle_new_image default_image_cooldown st now =
        ({ st with last_image_time := some now, skipped_images_count := 0 },
          some st.skipped_images_count) := by
      simp [handle_new_image, hlast]
    rw [hred]
    refine ⟨⟨fun _ => Or.inl rfl, fun _ => rfl⟩, ?_, ?_⟩
    · intro k hk
      exact ⟨(Option.some.inj hk).symm, rfl, rfl⟩
    · intro hk
      exact (Option.some_ne_none _ hk).elim
  | some last =>
    by_cases hcd : default_image_cooldown ≤ now - last
    · have hred : handle_new_image default_image_cooldown st now =
          ({ st with last_image_time := some now, skipped_images_count := 0 },
            some st.skipped_images_count) := by
        simp only [handle_new_image, hlast, ge_iff_le, decide_eq_true_eq]
        rw [if_pos hcd]
      rw [hred]
      refine ⟨⟨fun _ => Or.inr ⟨last, rfl, hcd⟩, fun _ => rfl⟩, ?_, ?_⟩
      · intro k hk
        exact ⟨(Option.some.inj hk).symm, rfl, rfl⟩
      · intro hk
        exact (Option.some_ne_none _ hk).elim
    · have hred : handle_new_image default_image_cooldown st now =
          ({ st with skipped_images_count := st.skipped_images_count + 1 }, none) := by
        simp only [handle_new_image, hlast, ge_iff_le, decide_eq_true_eq]
        rw [if_neg hcd]
      rw [hred]
      refine ⟨⟨?_, ?_⟩, ?_, ?_⟩
      · intro h
        simp at h
      · intro h
        rcases h with h | ⟨last2, h2, hge⟩
        · cases h
        · cases Option.some.inj h2
          exact absurd hge hcd
      · intro k hk
        cases hk
      · intro _
        exact ⟨rfl, hlast⟩

/-- C5 witness: the cooldown-gate theorem applied to the concrete state
with a send at time 0 and two suppressed images: at time 61 a send
happens and resets the counter; at time 30 a suppress increments it. -/
theorem cooldown_gate_protocol_witness :
    (handle_new_image default_image_cooldown wCooldownState 61).2.isSome = true ∧
      (handle_new_image default_image_cooldown wCooldownState 61).1.skipped_images_count = 0 ∧
      (handle_new_image default_image_cooldown wCooldownState 30).1.skipped_images_count =
        wCooldownState.skipped_images_count + 1 :=
  ⟨(cooldown_gate_protocol wCooldownState 61).1.mpr (Or.inr ⟨0, rfl, by decide⟩),
   ((cooldown_gate_protocol wCooldownState 61).2.1 2 (by decide)).2.2,
   ((cooldown_gate_protocol wCooldownState 30).2.2 (by decide)).1⟩

/-- Helper: rewriting the minute computation of the short-form formatter
through an explicit reduced fraction for hours times 60. -/
theorem fmt_eval (hours : Rat) (n : Int) (d : Nat) (hd : d ≠ 0)
    (hc : n.natAbs.Coprime d) (h : hours * 60 = Rat.mk' n d hd hc) :
    meridian_flip_time_formatted hours =
      pad2 (Int.tdiv (f64_as_i32 (Rat.mk' n d hd hc)) 60) ++ ":" ++
        pad2 (Int.tmod (f64_as_i32 (Rat.mk' n d hd hc)) 60) := by
  unfold meridian_flip_time_formatted
  rw [h]

/-- Helper: the same rewriting for the specification-side formula. -/
theorem spec_fmt_eval (hours : Rat) (n : Int) (d : Nat) (hd : d ≠ 0)
    (hc : n.natAbs.Coprime d) (h : hours * 60 = Rat.mk' n d hd hc) :
    spec_format_short hours =
      pad2 (Int.tdiv (ratTruncToInt (Rat.mk' n d hd hc)) 60) ++ ":" ++
        pad2 (Int.tmod (ratTruncToInt (Rat.mk' n d hd hc)) 60) := by
  unfold spec_format_short
  rw [h]

/-- Helper: forty million hours times 60 as a reduced fraction. -/
theorem forty_million_times_sixty :
    (40000000 : Rat) * 60 = Rat.mk' 2400000000 1 (by decide) (by decide) := by
  rw [Rat.mk'_eq_divInt]
  norm_num [Rat.divInt_eq_div]

/-- C8 counterexample: the formatter saturates the minute count at the
i32 maximum, so at 40000000 hours it prints "35791394:07" while the
claimed pure-truncation formula yields "40000000:00". -/
theorem meridian_saturation_counterexample :
    meridian_flip_time_formatted 40000000 = "35791394:07" ∧
      spec_format_short 40000000 = "40000000:00" ∧
      meridian_flip_time_formatted 40000000 ≠ spec_format_short 40000000 := by
  have h1 := fmt_eval 40000000 2400000000 1 (by decide) (by decide) forty_million_times_sixty
  have h2 := spec_fmt_eval 40000000 2400000000 1 (by decide) (by decide) forty_million_times_sixty
  rw [h1, h2]
  refine ⟨by decide, by decide, by decide⟩

/-- C8 (amended): whenever the truncated minute count fits the i32
range (no saturation), the formatter agrees with the claimed formula —
minutes is hours times 60 truncated toward zero, rendered as zero-padded
truncated division and remainder by 60; in particular 1.99999 hours
prints "01:59" (truncation, not rounding), 0 prints "00:00" and 2.5
prints "02:30". -/
theorem meridian_short_form :
    meridian_flip_time_formatted 1.99999 = "01:59" ∧
      meridian_flip_time_formatted 0 = "00:00" ∧
      meridian_flip_time_formatted 2.5 = "02:30" ∧
      (∀ hours : Rat, -2147483648 ≤ ratTruncToInt (hours * 60) →
        ratTruncToInt (hours * 60) ≤ 2147483647 →
        meridian_flip_time_formatted hours = spec_format_short hours) := by
  refine ⟨?_, ?_, ?_, ?_⟩
  · have h : (1.99999 : Rat) * 60 = Rat.mk' 599997 5000 (by decide) (by decide) := by
      rw [Rat.mk'_eq_divInt]
      norm_num [Rat.divInt_eq_div]
    rw [fmt_eval 1.99999 599997 5000 (by decide) (by decide) h]
    decide
  · have h : (0 : Rat) * 60 = Rat.mk' 0 1 (by decide) (by decide) := by
      rw [Rat.mk'_eq_divInt]
      norm_num [Rat.divInt_eq_div]
    rw [fmt_eval 0 0 1 (by decide) (by decide) h]
    decide
  · have h : (2.5 : Rat) * 60 = Rat.mk' 150 1 (by decide) (by decide) := by
      rw [Rat.mk'_eq_divInt]
      norm_num [Rat.divInt_eq_div]
    rw [fmt_eval 2.5 150 1 (by decide) (by decide) h]
    decide
  · intro hours hlo hhi
    unfold meridian_flip_time_formatted spec_format_short f64_as_i32
    rw [if_neg (by omega), if_neg (by omega)]

/-- C8 witness: the in-range case of the formatter theorem applied at
2.5 hours, whose minute count 150 is within the i32 range. -/
theorem meridian_short_form_witness :
    (-2147483648 ≤ ratTruncToInt ((2.5 : Rat) * 60) ∧
      ratTruncToInt ((2.5 : Rat) * 60) ≤ 2147483647) ∧
      meridian_flip_time_formatted 2.5 = spec_format_short 2.5 := by
  have h : (2.5 : Rat) * 60 = Rat.mk' 150 1 (by decide) (by decide) := by
    rw [Rat.mk'_eq_divInt]
    norm_num [Rat.divInt_eq_div]
  have hlo : -2147483648 ≤ ratTruncToInt ((2.5 : Rat) * 60) := by
    rw [h]; decide
  have hhi : ratTruncToInt ((2.5 : Rat) * 60) ≤ 2147483647 := by
    rw [h]; decide
  exact ⟨⟨hlo, hhi⟩, meridian_short_form.2.2.2 2.5 hlo hhi⟩

/-- Helper: the per-tick event filter keeps exactly the events that are
not redundant filter wheel changes. -/
theorem should_process_eq_not_noop (e : Event) :
    should_process_event e = !is_noop_filterwheel e := by
  rcases e with ⟨time, ev, details⟩
  by_cases he : (ev == FILTERWHEEL_CHANGED) = true
  · cases details with
    | none => simp [should_process_event, is_noop_filterwheel, he]
    | some d =>
      cases d with
      | FilterWheelChange nf pf =>
        simp [should_process_event, is_noop_filterwheel, he, bne]
      | TargetStart tn co pn ro =>
        simp [should_process_event, is_noop_filterwheel, he]
  · simp [should_process_event, is_noop_filterwheel, he]

/-- Helper: the seen-set component of the baseline loop is the initial
set joined with the fingerprints of the non-redundant events. -/
theorem baseline_loop_snd (evs : List Event) :
    ∀ latest seen, (baseline_loop latest seen evs).2 =
      seen ∪ ((evs.filter (fun x => !is_noop_filterwheel x)).map event_key).toFinset := by
  induction evs with
  | nil =>
    intro latest seen
    simp [baseline_loop]
  | cons e rest ih =>
    intro latest seen
    by_cases hn : is_noop_filterwheel e = true
    · have hf : List.filter (fun x => !is_noop_filterwheel x) (e :: rest) =
          List.filter (fun x => !is_noop_filterwheel x) rest := by
        simp [List.filter_cons, hn]
      simp only [baseline_loop, if_pos hn]
      rw [hf]
      exact ih _ _
    · have hf : List.filter (fun x => !is_noop_filterwheel x) (e :: rest) =
          e :: List.filter (fun x => !is_noop_filterwheel x) rest := by
        simp [List.filter_cons, hn]
      simp only [baseline_loop, if_neg hn]
      rw [ih, hf, List.map_cons, List.toFinset_cons, Finset.insert_union,
        Finset.union_insert]

/-- Helper: the event fingerprint determines the event. -/
theorem event_key_injective : Function.Injective event_key := by
  intro a b h
  cases a
  cases b
  simp only [event_key, Prod.mk.injEq] at h
  obtain ⟨h1, h2, h3⟩ := h
  subst h1
  subst h2
  subst h3
  rfl

/-- Helper: when exactly one element of a duplicate-free list is a
redundant filter wheel change, filtering the redundant ones away is
erasing that element. -/
theorem filter_eq_erase_of_unique :
    ∀ (l : List Event) (e : Event), l.Nodup → e ∈ l →
      is_noop_filterwheel e = true →
      (∀ x ∈ l, x ≠ e → is_noop_filterwheel x = false) →
      l.filter (fun x => !is_noop_filterwheel x) = l.erase e := by
  intro l
  induction l with
  | nil => intro e _ he; cases he
  | cons hd tl ih =>
    intro e hnd he hnoop hothers
    rw [List.nodup_cons] at hnd
    by_cases hhd : hd = e
    · subst hhd
      rw [List.erase_cons_head]
      have hskip : List.filter (fun x => !is_noop_filterwheel x) (hd :: tl) =
          List.filter (fun x => !is_noop_filterwheel x) tl := by
        simp [List.filter_cons, hnoop]
      rw [hskip]
      apply List.filter_eq_self.mpr
      intro x hx
      have hxn : x ≠ hd := fun hxe => hnd.1 (hxe ▸ hx)
      simp [hothers x (List.mem_cons_of_mem _ hx) hxn]
    · have hetl : e ∈ tl := by
        cases List.mem_cons.mp he with
        | inl h => exact absurd h.symm hhd
        | inr h => exact h
      have hfhd : is_noop_filterwheel hd = false :=
        hothers hd (List.mem_cons_self _ _) hhd
      rw [List.erase_cons_tail (by simp [hhd])]
      simp only [List.filter_cons, hfhd, Bool.not_false, if_pos]
      rw [ih e hnd.2 hetl hnoop
        (fun x hx hxe => hothers x (List.mem_cons_of_mem _ hx) hxe)]

/-- Helper: the seen-set of the processed baseline state. -/
theorem process_baseline_events_seen (st : UpdaterState) (events : List Event) :
    (process_baseline_events st events).events_seen =
      (baseline_loop none st.events_seen events).2 := by
  simp only [process_baseline_events]
  split <;> rfl

/-- Helper: the stored target of the processed baseline state. -/
theorem process_baseline_events_target (st : UpdaterState) (events : List Event) :
    (process_baseline_events st events).current_target =
      (match (baseline_loop none st.events_seen events).1 with
       | some p => some p.2
       | none => st.current_target) := by
  cases hr : (baseline_loop none st.events_seen events).1 with
  | some p =>
    cases p with
    | mk time target => simp [process_baseline_events, hr]
  | none => simp [process_baseline_events, hr]

/-- Helper: a tick classifies no event as new when every event passing
the filter is already fingerprinted. -/
theorem poll_events_no_new (evs : List Event) :
    ∀ st : UpdaterState,
      (∀ e ∈ evs, should_process_event e = true → event_key e ∈ st.events_seen) →
      (poll_events_list st evs).2 = [] := by
  induction evs with
  | nil => intro st _; rfl
  | cons e rest ih =>
    intro st hall
    by_cases hp : should_process_event e = true
    · have hmem : event_key e ∈ st.events_seen := hall e (List.mem_cons_self _ _) hp
      have hhr : (has_seen_event st e).1 = true := decide_eq_true hmem
      simp only [poll_events_list, if_pos hp, hhr, if_pos]
      exact ih _ (fun e2 he2 hp2 =>
        Finset.mem_insert_of_mem (hall e2 (List.mem_cons_of_mem _ he2) hp2))
    · simp only [poll_events_list, if_neg hp]
      exact ih st (fun e2 he2 hp2 => hall e2 (List.mem_cons_of_mem _ he2) hp2)

/-- C9: when the baseline fetch returns five pairwise-distinct events of
which exactly one is a redundant filter wheel change, the baseline seen
set holds exactly four fingerprints, the redundant event was never
fingerprinted at all, and a tick re-fetching the same five events
classifies zero events as new (hence dispatches nothing). -/
theorem baseline_noop_filtering (events : List Event) (e : Event)
    (hlen : events.length = 5) (hnd : events.Nodup) (he : e ∈ events)
    (hnoop : is_noop_filterwheel e = true)
    (hothers : ∀ x ∈ events, x ≠ e → is_noop_filterwheel x = false) :
    (process_baseline_events UpdaterState.new events).events_seen.card = 4 ∧
      event_key e ∉ (process_baseline_events UpdaterState.new events).events_seen ∧
      (poll_events_list (process_baseline_events UpdaterState.new events) events).2 = [] := by
  have hseen : (process_baseline_events UpdaterState.new events).events_seen =
      ((events.erase e).map event_key).toFinset := by
    rw [process_baseline_events_seen, baseline_loop_snd,
      filter_eq_erase_of_unique events e hnd he hnoop hothers]
    simp [UpdaterState.new]
  have hndk : ((events.erase e).map event_key).Nodup :=
    List.Nodup.map event_key_injective (hnd.erase e)
  refine ⟨?_, ?_, ?_⟩
  · rw [hseen, List.toFinset_card_of_nodup hndk, List.length_map,
      List.length_erase_of_mem he, hlen]
  · rw [hseen]
    intro hmem
    rw [List.mem_toFinset] at hmem
    obtain ⟨x, hx, hkx⟩ := List.mem_map.mp hmem
    have hxe : x = e := event_key_injective hkx
    subst hxe
    exact ((hnd.mem_erase_iff.mp hx).1 rfl).elim
  · apply poll_events_no_new
    intro e2 he2 hp2
    rw [hseen, List.mem_toFinset]
    have hne : e2 ≠ e := by
      intro heq
      subst heq
      rw [should_process_eq_not_noop, hnoop] at hp2
      cases hp2
    exact List.mem_map.mpr ⟨e2, hnd.mem_erase_iff.mpr ⟨hne, he2⟩, rfl⟩

/-- C9 witness: the baseline theorem applied to the concrete five-event
history with the single no-op filter wheel change. -/
theorem baseline_noop_filtering_witness :
    wEvents.length = 5 ∧ wEvents.Nodup ∧ wNoop ∈ wEvents ∧
      is_noop_filterwheel wNoop = true ∧
      (process_baseline_events UpdaterState.new wEvents).events_seen.card = 4 ∧
      event_key wNoop ∉ (process_baseline_events UpdaterState.new wEvents).events_seen ∧
      (poll_events_list (process_baseline_events UpdaterState.new wEvents) wEvents).2 = [] := by
  have h := baseline_noop_filtering wEvents wNoop (by decide) (by decide) (by decide)
    (by decide) (by decide)
  exact ⟨by decide, by decide, by decide, by decide, h.1, h.2.1, h.2.2⟩

/-- Helper: the latest-target component of the baseline loop does not
depend on the seen set. -/
theorem baseline_loop_fst_indep (evs : List Event) :
    ∀ latest seen seen2,
      (baseline_loop latest seen evs).1 = (baseline_loop latest seen2 evs).1 := by
  induction evs with
  | nil => intro latest seen seen2; rfl
  | cons e rest ih =>
    intro latest seen seen2
    by_cases hn : is_noop_filterwheel e = true
    · simp only [baseline_loop, if_pos hn]
      exact ih _ _ _
    · simp only [baseline_loop, if_neg hn]
      exact ih _ _ _

/-- Helper: a TS-TARGETSTART event named "Sequential Instruction Set"
never changes the tracked latest target. -/
theorem ts_update_sis (latest : Option (String × TargetInfo)) (e : Event)
    (c : TargetCoordinates) (p : String) (r : Rat)
    (hd : e.details = some (.TargetStart "Sequential Instruction Set" c p r)) :
    baseline_ts_update latest e = latest := by
  unfold baseline_ts_update
  by_cases he : (e.event == TS_TARGETSTART) = true
  · rw [if_pos he, hd]
    simp
  · rw [if_neg he]

/-- Helper: dropping a "Sequential Instruction Set" target-start event
anywhere in the history leaves the tracked latest target unchanged. -/
theorem baseline_loop_fst_skip (e : Event) (c : TargetCoordinates) (p : String)
    (r : Rat) (hd : e.details = some (.TargetStart "Sequential Instruction Set" c p r)) :
    ∀ (l1 l2 : List Event) latest seen seen2,
      (baseline_loop latest seen (l1 ++ e :: l2)).1 =
        (baseline_loop latest seen2 (l1 ++ l2)).1 := by
  intro l1
  induction l1 with
  | nil =>
    intro l2 latest seen seen2
    by_cases hn : is_noop_filterwheel e = true
    · simp only [List.nil_append, baseline_loop, if_pos hn]
      exact baseline_loop_fst_indep l2 latest seen seen2
    · simp only [List.nil_append, baseline_loop, if_neg hn]
      rw [ts_update_sis latest e c p r hd]
      exact baseline_loop_fst_indep l2 latest _ seen2
  | cons hd1 tl ih =>
    intro l2 latest seen seen2
    by_cases hn : is_noop_filterwheel hd1 = true
    · simp only [List.cons_append, baseline_loop, if_pos hn]
      exact ih l2 latest seen seen2
    · simp only [List.cons_append, baseline_loop, if_neg hn]
      exact ih l2 _ _ _

/-- C10: a TS-TARGETSTART event whose details name the reserved target
"Sequential Instruction Set" is ignored by target tracking: during
per-tick event handling it leaves the state unchanged and emits no
notification, and during baseline initialization its presence anywhere
in the history leaves the resolved current target unchanged. -/
theorem sequential_instruction_set_ignored :
    (∀ (st : UpdaterState) (e : Event) (c : TargetCoordinates) (p : String) (r : Rat)
        (serviceCount : Nat),
      e.details = some (.TargetStart "Sequential Instruction Set" c p r) →
      handle_ts_targetstart st e serviceCount = (st, none)) ∧
    (∀ (st : UpdaterState) (l1 l2 : List Event) (e : Event) (c : TargetCoordinates)
        (p : String) (r : Rat),
      e.details = some (.TargetStart "Sequential Instruction Set" c p r) →
      (process_baseline_events st (l1 ++ e :: l2)).current_target =
        (process_baseline_events st (l1 ++ l2)).current_target) := by
  constructor
  · intro st e c p r serviceCount hd
    unfold handle_ts_targetstart
    rw [hd]
    simp
  · intro st l1 l2 e c p r hd
    rw [process_baseline_events_target, process_baseline_events_target]
    rw [baseline_loop_fst_skip e c p r hd l1 l2 none st.events_seen st.events_seen]

/-- C10 witness: the concrete "Sequential Instruction Set" event neither
changes a state holding the target "M31" when handled per tick, nor
changes the target resolved by the concrete baseline history when
appended to it. -/
theorem sequential_instruction_set_ignored_witness :
    wSISEvent.details =
        some (.TargetStart "Sequential Instruction Set" ⟨"05:35", "-05:23"⟩ "P" 1) ∧
      handle_ts_targetstart wTsState wSISEvent 2 = (wTsState, none) ∧
      (process_baseline_events UpdaterState.new (wEvents ++ wSISEvent :: [])).current_target =
        (process_baseline_events UpdaterState.new (wEvents ++ [])).current_target :=
  ⟨by decide,
   sequential_instruction_set_ignored.1 wTsState wSISEvent ⟨"05:35", "-05:23"⟩ "P" 1 2 (by decide),
   sequential_instruction_set_ignored.2 UpdaterState.new wEvents [] wSISEvent
     ⟨"05:35", "-05:23"⟩ "P" 1 (by decide)⟩

end Spacecat
